import Mathlib

/-!
Shallow embedding of the OTUS camera-trap processing pipeline
(repository `dashboard-red-otus`, directory `3_processing_pipeline`).

Python strings are modelled as `List Char` (`PyStr`); nullable cells
(`NaN` / `None` / `NaT`) are modelled as `Option _`.  DataFrames are
modelled as lists of rows (row order preserved, as in pandas), or as
lists of named columns where the code works column-wise.
pandas library primitives used by the code (`str.strip`, `str.split`,
`pd.to_numeric` on a digit prefix, `Series.mode`, `groupby`, `merge`)
are given direct executable models next to their call sites.
-/

abbrev PyStr := List Char

/-- Python `str.strip()`: remove leading and trailing whitespace. -/
def pyStrip (s : PyStr) : PyStr :=
  ((s.dropWhile Char.isWhitespace).reverse.dropWhile Char.isWhitespace).reverse

/-- Python `str.split(sep)` for a one-character separator: splits at every
occurrence, keeping empty fragments (`"a__b".split("_") = ["a","","b"]`). -/
def pySplit (s : PyStr) (sep : Char) : List PyStr :=
  match s with
  | [] => [[]]
  | c :: rest =>
    if c = sep then [] :: pySplit rest sep
    else
      match pySplit rest sep with
      | [] => [[c]]
      | h :: t => (c :: h) :: t

/-- Numeric value of a digit string (Python `int(...)` on an all-digit string). -/
def parseNat (s : PyStr) : Nat :=
  s.foldl (fun acc c => 10 * acc + (c.toNat - 48)) 0

/-- The literal `"nan"`. -/
def nanChars : PyStr := ['n', 'a', 'n']

/-- Model of `src/utils.py::validar_subproject_name`.  The argument is the raw cell
value: `none` models a null-like value (`None` / `NaN`, `pd.isna` true).
The code's `try`/`except (ValueError, IndexError)` wrapper is modelled by
the defensive `Option` match on the index-4 character. -/
def validar_subproject_name (x : Option PyStr) : Bool :=
  match x with
  | none => false
  | some s0 =>
    -- subproject_str = str(subproject_name).strip()
    let s := pyStrip s0
    -- if len(subproject_str) != 6: return False
    if s.length ≠ 6 then false
    -- if subproject_str == 'nan' or subproject_str == '': return False
    else if s = nanChars ∨ s = [] then false
    else
      -- if subproject_str[4] != '_': return False
      match s.get? 4 with
      | none => false
      | some c =>
        if c ≠ '_' then false
        else
          -- partes = subproject_str.split('_'); len(partes) == 2
          match pySplit s '_' with
          | [year_str, num_str] =>
            -- if len(year_str) != 4 or not year_str.isdigit(): return False
            if year_str.length ≠ 4 ∨ ¬ year_str.all Char.isDigit then false
            -- if len(num_str) != 1 or not num_str.isdigit(): return False
            else if num_str.length ≠ 1 ∨ ¬ num_str.all Char.isDigit then false
            -- if int(year_str) < 2020: return False
            else if parseNat year_str < 2020 then false
            else true
          | _ => false

example : validar_subproject_name (some ['2', '0', '2', '5', '_', '1']) = true := by decide
example : validar_subproject_name (some ['2', '0', '1', '9', '_', '1']) = false := by decide
example : validar_subproject_name (some ['2', '0', '2', '5', '_', '1', '.', '2']) = false := by
  decide
example : validar_subproject_name (some ['2', '0', '2', '5', '_', '0']) = true := by decide

/-!
## Timestamps (`src/utils.py::procesar_timestamps`)

`PDateTime` models a pandas `Timestamp`.  Each entry of the `timestamp`
column is parsed with `pd.to_datetime(column, format=f, errors='coerce')`
for a fixed ordered list of strptime formats; the first format that
parses at least one entry is adopted for the whole column, otherwise the
permissive automatic parser `pd.to_datetime(column, errors='coerce')`
(an external library routine, taken here as a parameter) is used.
-/

structure PDateTime where
  year : Nat
  month : Nat
  day : Nat
  hour : Nat
  minute : Nat
  second : Nat
  micro : Nat
deriving DecidableEq, Repr

/-- strptime directives appearing in the pipeline's format list. -/
inductive FTok where
  | year
  | mon
  | day
  | hour
  | minu
  | sec
  | frac
  | lit (c : Char)
deriving DecidableEq, Repr

/-- Parse exactly `n` leading digits. -/
def digitsN (n : Nat) (cs : PyStr) : Option (Nat × PyStr) :=
  let pre := cs.take n
  if pre.length = n ∧ pre.all Char.isDigit then some (parseNat pre, cs.drop n) else none

/-- Directive `%f`: one to six digits of fractional seconds. -/
def fracDigits (cs : PyStr) : Option (Nat × PyStr) :=
  let ds := cs.takeWhile Char.isDigit
  if 1 ≤ ds.length ∧ ds.length ≤ 6 then some (parseNat ds, cs.drop ds.length) else none

/-- Partial strptime state; strptime defaults are year 1900, month 1, day 1. -/
structure PState where
  y : Nat := 1900
  m : Nat := 1
  d : Nat := 1
  h : Nat := 0
  mi : Nat := 0
  s : Nat := 0
  f : Nat := 0
deriving Repr

def runToks : List FTok → PyStr → PState → Option PState
  | [], [], st => some st
  | [], _ :: _, _ => none
  | t :: ts, cs, st =>
    match t with
    | .lit c =>
      match cs with
      | [] => none
      | x :: rest => if x = c then runToks ts rest st else none
    | .year => (digitsN 4 cs).bind fun p => runToks ts p.2 { st with y := p.1 }
    | .mon => (digitsN 2 cs).bind fun p => runToks ts p.2 { st with m := p.1 }
    | .day => (digitsN 2 cs).bind fun p => runToks ts p.2 { st with d := p.1 }
    | .hour => (digitsN 2 cs).bind fun p => runToks ts p.2 { st with h := p.1 }
    | .minu => (digitsN 2 cs).bind fun p => runToks ts p.2 { st with mi := p.1 }
    | .sec => (digitsN 2 cs).bind fun p => runToks ts p.2 { st with s := p.1 }
    | .frac => (fracDigits cs).bind fun p => runToks ts p.2 { st with f := p.1 }

def isLeap (y : Nat) : Bool :=
  (y % 4 = 0 ∧ y % 100 ≠ 0) ∨ y % 400 = 0

def daysInMonth (y m : Nat) : Nat :=
  if m = 2 then (if isLeap y then 29 else 28)
  else if m = 4 ∨ m = 6 ∨ m = 9 ∨ m = 11 then 30
  else 31

def validDateTime (st : PState) : Bool :=
  1 ≤ st.m ∧ st.m ≤ 12 ∧ 1 ≤ st.d ∧ st.d ≤ daysInMonth st.y st.m ∧
    st.h < 24 ∧ st.mi < 60 ∧ st.s < 60

/-- Model of `pd.to_datetime(value, format=fmt, errors='coerce')` on one cell:
the whole string must match the format and denote a calendar-valid
date-time, otherwise the result is `NaT` (`none`). -/
def strptimeFmt (fmt : List FTok) (cs : PyStr) : Option PDateTime :=
  match runToks fmt cs {} with
  | none => none
  | some st =>
    if validDateTime st then some ⟨st.y, st.m, st.d, st.h, st.mi, st.s, st.f⟩ else none

/-- The `formatos_fecha` list of `procesar_timestamps`, in source order. -/
def formatos_fecha : List (List FTok) :=
  [ -- '%Y-%m-%d %H:%M:%S'
    [.year, .lit '-', .mon, .lit '-', .day, .lit ' ', .hour, .lit ':', .minu, .lit ':', .sec],
    -- '%Y-%m-%d %H:%M:%S.%f'
    [.year, .lit '-', .mon, .lit '-', .day, .lit ' ', .hour, .lit ':', .minu, .lit ':', .sec,
      .lit '.', .frac],
    -- '%m/%d/%Y %H:%M'
    [.mon, .lit '/', .day, .lit '/', .year, .lit ' ', .hour, .lit ':', .minu],
    -- '%d/%m/%Y %H:%M:%S'
    [.day, .lit '/', .mon, .lit '/', .year, .lit ' ', .hour, .lit ':', .minu, .lit ':', .sec],
    -- '%d/%m/%Y %H:%M'
    [.day, .lit '/', .mon, .lit '/', .year, .lit ' ', .hour, .lit ':', .minu],
    -- '%Y/%m/%d %H:%M:%S'
    [.year, .lit '/', .mon, .lit '/', .day, .lit ' ', .hour, .lit ':', .minu, .lit ':', .sec],
    -- '%Y-%m-%dT%H:%M:%S'
    [.year, .lit '-', .mon, .lit '-', .day, .lit 'T', .hour, .lit ':', .minu, .lit ':', .sec],
    -- '%Y-%m-%dT%H:%M:%S.%f'
    [.year, .lit '-', .mon, .lit '-', .day, .lit 'T', .hour, .lit ':', .minu, .lit ':', .sec,
      .lit '.', .frac],
    -- '%Y-%m-%dT%H:%M:%SZ'
    [.year, .lit '-', .mon, .lit '-', .day, .lit 'T', .hour, .lit ':', .minu, .lit ':', .sec,
      .lit 'Z'] ]

/-- One strict-format attempt over the whole column
(`pd.to_datetime(df[col], format=f, errors='coerce')`); missing cells
(`NaN`) come out as `NaT`. -/
def parseColumn (fmt : List FTok) (col : List (Option PyStr)) : List (Option PDateTime) :=
  col.map fun o => o.bind (strptimeFmt fmt)

/-- Model of `src/utils.py::procesar_timestamps`, restricted to the timestamp
column it transforms.  `generic` is the library's permissive parser
`pd.to_datetime(_, errors='coerce')`, passed in as an opaque collaborator.
The source loop breaks at the first format whose parse has at least one
non-NaT entry; if no format produced any valid entry the generic parser
is used for the whole column. -/
def procesar_timestamps (col : List (Option PyStr)) (generic : PyStr → Option PDateTime) :
    List (Option PDateTime) :=
  match formatos_fecha.find? (fun f => (parseColumn f col).any Option.isSome) with
  | some f => parseColumn f col
  | none => col.map fun o => o.bind generic

example :
    strptimeFmt (formatos_fecha.get ⟨0, by decide⟩)
      ['2', '0', '2', '5', '-', '0', '1', '-', '1', '5', ' ', '1', '4', ':', '3', '0', ':',
        '0', '0'] = some ⟨2025, 1, 15, 14, 30, 0, 0⟩ := by decide
example : strptimeFmt (formatos_fecha.get ⟨0, by decide⟩) ['x'] = none := by decide

/-!
## Observation rows and the consistency filters (`src/utils.py`)

`ObsRow` carries the columns the filters inspect; a row-level model of
the merged observations DataFrame.  The defensive column-deduplication
performed by `filtrar_fechas_inconsistentes` is a column-labelling
concern with no counterpart in a row model with uniquely named fields.
-/

structure ObsRow where
  project_id : Int
  deployment_id : PyStr
  subproject_name : Option PyStr
  timestampRaw : Option PyStr
  photo_datetime : Option PDateTime
  genus : Option PyStr
  species : Option PyStr
deriving DecidableEq, Repr

/-- Model of `df[columna_fecha].dt.year` for one row: the year component, `NaN`
for `NaT`. -/
def capture_year (r : ObsRow) : Option Nat :=
  r.photo_datetime.map PDateTime.year

/-- Model of `pd.to_numeric(df[columna_subproject].astype(str).str[:4],
errors='coerce')` for one row: the first four characters of the
subproject name, coerced to a number when they are all digits and `NaN`
otherwise (a null cell stringifies to `'nan'`, which `pd.to_numeric`
also coerces to `NaN`). -/
def event_year (r : ObsRow) : Option Nat :=
  match r.subproject_name with
  | none => none
  | some s =>
    let pre := s.take 4
    if pre ≠ [] ∧ pre.all Char.isDigit then some (parseNat pre) else none

/-- The retention mask of `filtrar_fechas_inconsistentes`:
`(year_subproject - year_photo <= 1) & year_photo.notna() & year_subproject.notna()`. -/
def mask_valido (r : ObsRow) : Bool :=
  match event_year r, capture_year r with
  | some ys, some yp => (ys : Int) - (yp : Int) ≤ 1
  | _, _ => false

/-- Model of `src/utils.py::filtrar_fechas_inconsistentes`, on the row model:
`df_filtrado = df[mask_valido]`. -/
def filtrar_fechas_inconsistentes (rows : List ObsRow) : List ObsRow :=
  rows.filter mask_valido

/-- Model of `src/utils.py::filtrar_por_subproject_valido`:
`mask_valido = df[columna].apply(validar_subproject_name)`. -/
def filtrar_por_subproject_valido (rows : List ObsRow) : List ObsRow :=
  rows.filter fun r => validar_subproject_name r.subproject_name

/-!
## Computer-vision cleaning (`src/utils.py::limpiar_registros_cv`)

The genus/species columns may be absent, so the DataFrame model keeps
explicit presence flags alongside the rows.
-/

structure ImagesDf where
  hasGenus : Bool
  hasSpecies : Bool
  rows : List ObsRow
deriving DecidableEq, Repr

def noCVChars : PyStr := ['N', 'o', ' ', 'C', 'V', ' ', 'R', 'e', 's', 'u', 'l', 't']

def unknownChars : PyStr := ['U', 'n', 'k', 'n', 'o', 'w', 'n']

/-- Model of `series.isin(["No CV Result", "Unknown"])` on one cell (`NaN` is not
a member). -/
def isBadCV (o : Option PyStr) : Bool :=
  match o with
  | none => false
  | some s => s = noCVChars ∨ s = unknownChars

/-- Model of `src/utils.py::limpiar_registros_cv`: if either taxonomy column is
missing the input is returned as is; otherwise
`df.dropna(subset=["genus","species"], how="any")` followed by
`df_clean[~mask1 & ~mask2]`. -/
def limpiar_registros_cv (d : ImagesDf) : ImagesDf :=
  if d.hasGenus && d.hasSpecies then
    let dropped := d.rows.filter fun r => r.genus.isSome && r.species.isSome
    { d with rows := dropped.filter fun r => !(isBadCV r.genus) && !(isBadCV r.species) }
  else d

/-!
## Jurisdiction assignment (`src/transformations.py`)

`asignar_corporacion_geografica` reads a shapefile of CAR polygons,
performs a point-in-polygon spatial join over the deployments that have
both coordinates, and aggregates to project level with
`groupby('project_id')['Corporacion'].agg(lambda x: x.mode()[0] if ...)`.
Geometry is modelled by giving each polygon its Boolean `within`
predicate; coordinates are modelled as integers (`none` for `NaN`),
since the code only ever tests presence and polygon membership.
`pandas.Series.mode` drops nulls, and returns the most frequent values
sorted in ascending order, so `x.mode()[0]` is the smallest value of
maximal count; string order is modelled by `lexLe` below.
-/

/-- Lexicographic order on Python strings (pandas sorts object values
with `<` on `str`). -/
def lexLe : PyStr → PyStr → Bool
  | [], _ => true
  | _ :: _, [] => false
  | a :: as, b :: bs => if a < b then true else if b < a then false else lexLe as bs

/-- Binary minimum for `lexLe`. -/
def lexMin (a b : PyStr) : PyStr := if lexLe a b then a else b

/-- Occurrences of a value in a series (`value_counts` style count). -/
def cnt (nn : List PyStr) (v : PyStr) : Nat :=
  nn.countP fun x => x = v

/-- Non-null values of a series (`Series.mode` drops `NaN` first). -/
def nnOf (l : List (Option PyStr)) : List PyStr := l.filterMap id

/-- Distinct values of the non-null part. -/
def candsOf (l : List (Option PyStr)) : List PyStr := (nnOf l).dedup

/-- The maximal multiplicity among the distinct non-null values. -/
def maxCnt (l : List (Option PyStr)) : Nat :=
  ((candsOf l).map (cnt (nnOf l))).foldr max 0

/-- The distinct values attaining the maximal multiplicity (the modes). -/
def tiedOf (l : List (Option PyStr)) : List PyStr :=
  (candsOf l).filter fun v => cnt (nnOf l) v = maxCnt l

/-- Model of `x.mode()[0] if len(x.mode()) > 0 and pd.notna(x.mode()[0]) else None`:
the smallest mode of the non-null values, `None` when every value is
null or the series is empty. -/
def seriesMode (l : List (Option PyStr)) : Option PyStr :=
  match tiedOf l with
  | [] => none
  | h :: t => some (t.foldl lexMin h)

example : seriesMode [some ['A'], some ['A'], some ['A'], some ['B']] = some ['A'] := by decide
example : seriesMode [none, none] = none := by decide
example : seriesMode [some ['B'], some ['A']] = some ['A'] := by decide

structure Deployment where
  deployment_id : PyStr
  project_id : Int
  subproject_name : Option PyStr
  longitude : Option Int
  latitude : Option Int

/-- A CAR polygon: its `NOMBRE_CAR` attribute and its `within` predicate
(shapely geometry, abstracted to the Boolean test the join consumes). -/
structure CarPolygon where
  nombre : PyStr
  contains : Int × Int → Bool

/-- The polygon reference dataset as the assigner sees it. -/
inductive ShpData where
  | missing
  | readError
  | table (hasNombreCar : Bool) (polys : List CarPolygon)

/-- Model of `src/transformations.py::crear_corporaciones_null`:
`pd.DataFrame({'project_id': deployments_df['project_id'].unique(),
'Corporacion': None})`. -/
def crear_corporaciones_null (deps : List Deployment) : List (Int × Option PyStr) :=
  ((deps.map Deployment.project_id).dedup).map fun p => (p, none)

/-- Model of `deps.dropna(subset=['longitude','latitude'])`. -/
def deps_validos (deps : List Deployment) : List Deployment :=
  deps.filter fun d => d.longitude.isSome && d.latitude.isSome

/-- The spatial join result for one valid deployment:
`gpd.sjoin(..., how='left', predicate='within')` keeps the matching
polygon's `NOMBRE_CAR`, or `NaN` when no polygon contains the point.
Polygons are assumed non-overlapping; with overlaps the join would
duplicate the row, and this model keeps the first match. -/
def sjoinWithin (polys : List CarPolygon) (d : Deployment) : Option PyStr :=
  match d.longitude, d.latitude with
  | some lon, some lat => (polys.find? fun pg => pg.contains (lon, lat)).map CarPolygon.nombre
  | _, _ => none

/-- The deployment-level join table restricted to one project
(`deployment_corps` rows of that `project_id`, `Corporacion` column). -/
def projectEvidence (deps : List Deployment) (polys : List CarPolygon) (p : Int) :
    List (Option PyStr) :=
  ((deps_validos deps).filter fun d => d.project_id = p).map (sjoinWithin polys)

/-- Model of `src/transformations.py::asignar_corporacion_geografica`.  The three
degraded branches (shapefile absent, any exception while reading or
joining, `NOMBRE_CAR` column missing) and the no-valid-coordinates
branch all fall back to `crear_corporaciones_null`; the main branch
groups the joined table by `project_id` and takes the pandas mode. -/
def asignar_corporacion_geografica (deps : List Deployment) (shp : ShpData) :
    List (Int × Option PyStr) :=
  match shp with
  | .missing => crear_corporaciones_null deps
  | .readError => crear_corporaciones_null deps
  | .table false _ => crear_corporaciones_null deps
  | .table true polys =>
    let dv := deps_validos deps
    if dv.isEmpty then crear_corporaciones_null deps
    else
      let dc := dv.map fun d => (d.project_id, sjoinWithin polys d)
      ((dc.map Prod.fst).dedup).map fun p =>
        (p, seriesMode ((dc.filter fun row => row.1 = p).map Prod.snd))

/-- Looking a project up in the returned table (the `how='left'` merge
by `project_id` performed by the orchestrator). -/
def lookupCorp (tbl : List (Int × Option PyStr)) (p : Int) : Option (Option PyStr) :=
  (tbl.find? fun row => row.1 = p).map Prod.snd

/-- The jurisdiction a project ends up with after the left merge: `NaN`
both when the table maps it to null and when the table has no row for
it. -/
def jurisdictionOf (tbl : List (Int × Option PyStr)) (p : Int) : Option PyStr :=
  (lookupCorp tbl p).join

/-!
## Dtype optimisation (`src/generate_parquets.py::optimizar_tipos_datos`)

A DataFrame is modelled as named columns; a column is its dtype together
with its cells.  The loop bodies only touch `object` and `int64`
columns, so other dtypes are grouped into pass-through constructors.
`nunique` ignores nulls; the float test `num_unique / num_total < 0.5`
is `2 * num_unique < num_total` for a non-empty frame.  `astype('int32')`
wraps modulo 2^32 (`toInt32`), and is only applied when the column
minimum and maximum already fit, per the source's range guard.
-/

inductive ColData where
  | int64 (vals : List Int)
  | int32 (vals : List Int)
  | obj (vals : List (Option PyStr))
  | cat (vals : List (Option PyStr))
  | dt (vals : List (Option PDateTime))
deriving DecidableEq, Repr

/-- Dtype-erased cell contents of a column. -/
inductive PVal where
  | vint (i : Int)
  | vstr (o : Option PyStr)
  | vdt (o : Option PDateTime)
deriving DecidableEq, Repr

def colValues : ColData → List PVal
  | .int64 vals => vals.map PVal.vint
  | .int32 vals => vals.map PVal.vint
  | .obj vals => vals.map PVal.vstr
  | .cat vals => vals.map PVal.vstr
  | .dt vals => vals.map PVal.vdt

def colLen (c : ColData) : Nat := (colValues c).length

/-- Model of `Series.nunique()`: distinct non-null values. -/
def nuniqueObj (vals : List (Option PyStr)) : Nat := (vals.filterMap id).dedup.length

/-- Two's-complement wrap-around of `astype('int32')`. -/
def toInt32 (i : Int) : Int := (i + 2 ^ 31) % 2 ^ 32 - 2 ^ 31

def listMinI (h : Int) (t : List Int) : Int := t.foldl min h

def listMaxI (h : Int) (t : List Int) : Int := t.foldl max h

/-- Model of `col_min >= -2147483648 and col_max <= 2147483647` (`False` on an
empty column, where the pandas min/max are `NaN`). -/
def int32Fits : List Int → Bool
  | [] => false
  | h :: t => -2147483648 ≤ listMinI h t ∧ listMaxI h t ≤ 2147483647

/-- Model of `src/generate_parquets.py::optimizar_tipos_datos`: first loop turns
low-cardinality `object` columns into `category`, second loop narrows
`int64` columns whose range fits into `int32`. -/
def optObjCol : ColData → ColData
  | .obj vals => if 2 * nuniqueObj vals < vals.length then .cat vals else .obj vals
  | c => c

def optIntCol : ColData → ColData
  | .int64 vals => if int32Fits vals then .int32 (vals.map toInt32) else .int64 vals
  | c => c

def optimizar_tipos_datos (cols : List (PyStr × ColData)) : List (PyStr × ColData) :=
  (cols.map fun nc => (nc.1, optObjCol nc.2)).map fun nc => (nc.1, optIntCol nc.2)

/-!
## Orchestrator (`process_RAW_data_WI.py::main`)

The run's inputs are modelled up to the information the control flow
consumes: whether the reference CSVs loaded, the concatenated image rows
(or `none` when no file could be read), the deployments table, the
shapefile, the dynamic presence of the taxonomy columns, and the
library's generic date parser.  `main` returns `False` (and skips the
export and validation phases) exactly at the guards modelled below; the
enrichment steps that only add constant columns (`sp_binomial`,
administrative metadata, `deployment_days`, derived date columns) do not
change the tracked fields and are identity on this model.
-/

structure RawInputs where
  refsOk : Bool
  images : Option (List ObsRow)
  deployments : List Deployment
  shp : ShpData
  hasGenusCol : Bool
  hasSpeciesCol : Bool
  genericParser : PyStr → Option PDateTime

structure RunOutcome where
  success : Bool
  exported : Bool
  validated : Bool
deriving DecidableEq, Repr

def failRun : RunOutcome := ⟨false, false, false⟩

/-- Lifting `procesar_timestamps` to DataFrame level: the parsed column is
written back as `photo_datetime`. -/
def applyTimestamps (rows : List ObsRow) (generic : PyStr → Option PDateTime) : List ObsRow :=
  rows.zipWith (fun r o => { r with photo_datetime := o })
    (procesar_timestamps (rows.map ObsRow.timestampRaw) generic)

/-- Model of `merge_images_deployments` (`src/transformations.py`): left merge on
`(project_id, deployment_id)`; unmatched rows keep `NaN` deployment
fields, and a key matching several deployments duplicates the image row,
as `pd.merge(..., how='left')` does.  The Wildlife Insights
`subproject_name` arrives on the observation rows through this merge. -/
def merge_images_deployments (imgs : List ObsRow) (deps : List Deployment) : List ObsRow :=
  imgs.flatMap fun r =>
    match deps.filter fun d => d.project_id = r.project_id ∧ d.deployment_id = r.deployment_id
      with
    | [] => [{ r with subproject_name := none }]
    | m :: ms => (m :: ms).map fun d => { r with subproject_name := d.subproject_name }

/-- The dataset right after phase 3.4 (`filtrar_por_subproject_valido`). -/
def pipelineAfterSubproject (inp : RawInputs) (imgs : List ObsRow) : List ObsRow :=
  filtrar_por_subproject_valido
    (merge_images_deployments
      (limpiar_registros_cv
        ⟨inp.hasGenusCol, inp.hasSpeciesCol, applyTimestamps imgs inp.genericParser⟩).rows
      inp.deployments)

/-- The dataset right after phase 3.5 (`filtrar_fechas_inconsistentes`). -/
def pipelineAfterDates (inp : RawInputs) (imgs : List ObsRow) : List ObsRow :=
  filtrar_fechas_inconsistentes (pipelineAfterSubproject inp imgs)

/-- Model of `process_RAW_data_WI.py::main`, up to the outcome signal: the
sequence of fatal guards (`return False`) and whether the export and
validation phases were reached.  The geographic phase merges
`asignar_corporacion_geografica`'s project-level table in with
`how='left'`, which gates nothing, and `generar_todas_las_tablas`
returns a non-empty dict, so after the date-consistency guard the run
always reaches export and validation. -/
def mainRun (inp : RawInputs) : RunOutcome :=
  if ¬ inp.refsOk then failRun
  else
    match inp.images with
    | none => failRun
    | some imgs =>
      if imgs.isEmpty then failRun
      else if (pipelineAfterSubproject inp imgs).isEmpty then failRun
      else if (pipelineAfterDates inp imgs).isEmpty then failRun
      else ⟨true, true, true⟩

/-!
## Concrete rows for the date-consistency scenarios
-/

def subproj2025 : Option PyStr := some ['2', '0', '2', '5', '_', '1']

def rowDrop2019 : ObsRow :=
  { project_id := 1, deployment_id := ['d', '1'], subproject_name := subproj2025,
    timestampRaw := none, photo_datetime := some ⟨2019, 1, 1, 0, 0, 0, 0⟩,
    genus := none, species := none }

def rowKeep2024 : ObsRow :=
  { project_id := 1, deployment_id := ['d', '2'], subproject_name := subproj2025,
    timestampRaw := none, photo_datetime := some ⟨2024, 6, 1, 0, 0, 0, 0⟩,
    genus := none, species := none }

/-- C1: the date-consistency filter retains exactly the rows whose
subproject event year minus the capture year is at most 1, with both
defined; rows with missing `photo_datetime` or an unparsable subproject
year are dropped; no forward bound is applied (any row with
`capture_year >= event_year - 1` and both defined is retained); the
subproject `"2025_1"` row dated 2019-01-01 is dropped and the one dated
2024-06-01 is retained. -/
theorem c1_date_filter :
    (∀ rows r, r ∈ filtrar_fechas_inconsistentes rows →
      ∃ ys yp, event_year r = some ys ∧ capture_year r = some yp ∧
        (ys : Int) - (yp : Int) ≤ 1)
  ∧ (∀ rows r, r ∈ rows → r.photo_datetime = none ∨ event_year r = none →
      r ∉ filtrar_fechas_inconsistentes rows)
  ∧ (∀ rows r, r ∈ rows → ∀ ys yp, event_year r = some ys → capture_year r = some yp →
      (ys : Int) - 1 ≤ (yp : Int) → r ∈ filtrar_fechas_inconsistentes rows)
  ∧ rowDrop2019 ∉ filtrar_fechas_inconsistentes [rowDrop2019, rowKeep2024]
  ∧ rowKeep2024 ∈ filtrar_fechas_inconsistentes [rowDrop2019, rowKeep2024] := by
  refine ⟨?_, ?_, ?_, by decide, by decide⟩
  · intro rows r hr
    have h := (List.mem_filter.mp hr).2
    unfold mask_valido at h
    cases hey : event_year r with
    | none => rw [hey] at h; simp at h
    | some ys =>
      cases hcy : capture_year r with
      | none => rw [hey, hcy] at h; simp at h
      | some yp =>
        rw [hey, hcy] at h
        exact ⟨ys, yp, rfl, rfl, by simpa using h⟩
  · intro rows r _ hbad hr
    have h := (List.mem_filter.mp hr).2
    unfold mask_valido at h
    rcases hbad with hna | hna
    · rw [show capture_year r = none by simp [capture_year, hna]] at h
      cases event_year r <;> simp at h
    · rw [hna] at h; simp at h
  · intro rows r hmem ys yp hey hcy hle
    refine List.mem_filter.mpr ⟨hmem, ?_⟩
    unfold mask_valido
    rw [hey, hcy]
    simpa using by omega

/-- C1 witness: the retained-row property instantiated on the concrete
two-row scenario. -/
theorem c1_date_filter_witness :
    ∃ ys yp, event_year rowKeep2024 = some ys ∧ capture_year rowKeep2024 = some yp ∧
      (ys : Int) - (yp : Int) ≤ 1 :=
  c1_date_filter.1 [rowDrop2019, rowKeep2024] rowKeep2024 (by decide)

/-- C7: the date-consistency filter is idempotent — applying it to its
own output returns the output unchanged. -/
theorem c7_filter_idempotent (rows : List ObsRow) :
    filtrar_fechas_inconsistentes (filtrar_fechas_inconsistentes rows) =
      filtrar_fechas_inconsistentes rows := by
  simp [filtrar_fechas_inconsistentes, List.filter_filter]

/-- C5 (divergence witness): the validator accepts `"2025_0"`, whose
sequence digit is `'0'`, although its own docstring and the spec require
the sequence digit to lie in 1-9. -/
theorem c5_validator_accepts_zero :
    validar_subproject_name (some ['2', '0', '2', '5', '_', '0']) = true := by decide

/-- C9: the computer-vision cleaning step only drops rows (its output is
a sublist of the input with values unchanged), keeps the presence flags,
retains only rows whose genus and species are present and are neither
`"No CV Result"` nor `"Unknown"`, and is the identity when either
taxonomy column is absent. -/
theorem c9_cv_clean :
    (∀ d : ImagesDf, (limpiar_registros_cv d).rows.Sublist d.rows ∧
      (limpiar_registros_cv d).hasGenus = d.hasGenus ∧
      (limpiar_registros_cv d).hasSpecies = d.hasSpecies)
  ∧ (∀ d : ImagesDf, ∀ r ∈ (limpiar_registros_cv d).rows,
      d.hasGenus = true → d.hasSpecies = true →
      r.genus.isSome = true ∧ r.species.isSome = true ∧
        (∀ g, r.genus = some g → g ≠ noCVChars ∧ g ≠ unknownChars) ∧
        (∀ sp, r.species = some sp → sp ≠ noCVChars ∧ sp ≠ unknownChars))
  ∧ (∀ d : ImagesDf, d.hasGenus = false ∨ d.hasSpecies = false →
      limpiar_registros_cv d = d) := by
  refine ⟨?_, ?_, ?_⟩
  · intro d
    unfold limpiar_registros_cv
    split
    · exact ⟨(List.filter_sublist _).trans (List.filter_sublist _), rfl, rfl⟩
    · exact ⟨List.Sublist.refl _, rfl, rfl⟩
  · intro d r hr hg hs
    unfold limpiar_registros_cv at hr
    rw [if_pos (by rw [hg, hs]; rfl)] at hr
    simp only [List.mem_filter] at hr
    obtain ⟨⟨_, hpresent⟩, hgood⟩ := hr
    simp only [Bool.and_eq_true] at hpresent hgood
    refine ⟨hpresent.1, hpresent.2, ?_, ?_⟩
    · intro g hgenus
      have := hgood.1
      rw [hgenus] at this
      simp [isBadCV] at this
      tauto
    · intro sp hspecies
      have := hgood.2
      rw [hspecies] at this
      simp [isBadCV] at this
      tauto
  · intro d hd
    unfold limpiar_registros_cv
    rcases hd with hd | hd <;> rw [hd] <;> simp

/-- A concrete detection row with full taxonomy. -/
def rowPuma : ObsRow :=
  { project_id := 1, deployment_id := ['d', '3'], subproject_name := subproj2025,
    timestampRaw := none, photo_datetime := some ⟨2024, 6, 1, 0, 0, 0, 0⟩,
    genus := some ['P', 'u', 'm', 'a'], species := some ['c', 'o', 'n', 'c', 'o', 'l', 'o', 'r'] }

/-- C9 witness: the retained-row property on a one-row concrete frame. -/
theorem c9_cv_clean_witness :
    rowPuma.genus.isSome = true ∧ rowPuma.species.isSome = true ∧
      (∀ g, rowPuma.genus = some g → g ≠ noCVChars ∧ g ≠ unknownChars) ∧
      (∀ sp, rowPuma.species = some sp → sp ≠ noCVChars ∧ sp ≠ unknownChars) :=
  c9_cv_clean.2.1 ⟨true, true, [rowPuma]⟩ rowPuma (by decide) rfl rfl

/-- C2: the validator returns true iff, after stripping surrounding
whitespace, the value has exactly 6 characters, is not `"nan"` or empty
(nulls are rejected up front), has `'_'` exactly at index 4, splits on
`'_'` into exactly two parts whose first is four digits forming a year
at least 2020 and whose second is a single digit; `"2025_1.2"` and
`"2019_1"` are invalid, `"2025_1"` is valid. -/
theorem c2_validator_characterization :
    (∀ s : PyStr,
      validar_subproject_name (some s) = true ↔
        (pyStrip s).length = 6 ∧ pyStrip s ≠ nanChars ∧ pyStrip s ≠ [] ∧
          (pyStrip s).get? 4 = some '_' ∧
          ∃ a b, pySplit (pyStrip s) '_' = [a, b] ∧
            a.length = 4 ∧ a.all Char.isDigit = true ∧ 2020 ≤ parseNat a ∧
            b.length = 1 ∧ b.all Char.isDigit = true)
  ∧ validar_subproject_name none = false
  ∧ validar_subproject_name (some ['2', '0', '2', '5', '_', '1', '.', '2']) = false
  ∧ validar_subproject_name (some ['2', '0', '1', '9', '_', '1']) = false
  ∧ validar_subproject_name (some ['2', '0', '2', '5', '_', '1']) = true := by
  refine ⟨?_, rfl, by decide, by decide, by decide⟩
  intro s
  simp only [validar_subproject_name]
  generalize pyStrip s = t
  by_cases h6 : t.length = 6
  · rw [if_neg (by simpa using h6)]
    by_cases hnan : t = nanChars ∨ t = []
    · rw [if_pos hnan]
      rcases hnan with h | h <;> simp [h]
    · rw [if_neg hnan]
      push_neg at hnan
      cases h4 : t.get? 4 with
      | none => simp [h4]
      | some c =>
        dsimp only
        by_cases hc : c = '_'
        · subst hc
          rw [if_neg (by simp)]
          rcases hsp : pySplit t '_' with _ | ⟨a, _ | ⟨b, _ | ⟨x, rest⟩⟩⟩
          · simp
          · simp
          · dsimp only
            by_cases ha : a.length = 4 ∧ a.all Char.isDigit = true
            · rw [if_neg (by simp [ha.1, ha.2])]
              by_cases hb : b.length = 1 ∧ b.all Char.isDigit = true
              · rw [if_neg (by simp [hb.1, hb.2])]
                by_cases hy : parseNat a < 2020
                · rw [if_pos hy]
                  refine iff_of_false (by simp) ?_
                  rintro ⟨-, -, -, -, a', b', heq, -, -, hy', -, -⟩
                  injection heq with h1 h2
                  injection h2 with h2 h3
                  subst h1
                  omega
                · rw [if_neg hy]
                  refine iff_of_true rfl
                    ⟨h6, hnan.1, hnan.2, rfl, a, b, rfl, ha.1, ha.2, by omega, hb.1, hb.2⟩
              · rw [if_pos ?_]
                · refine iff_of_false (by simp) ?_
                  rintro ⟨-, -, -, -, a', b', heq, -, -, -, hbl, hbd⟩
                  injection heq with h1 h2
                  injection h2 with h2 h3
                  subst h2
                  exact hb ⟨hbl, hbd⟩
                · rcases Decidable.not_and_iff_or_not.mp hb with h | h
                  · exact Or.inl h
                  · exact Or.inr (by simpa using h)
            · rw [if_pos ?_]
              · refine iff_of_false (by simp) ?_
                rintro ⟨-, -, -, -, a', b', heq, hal, had, -, -, -⟩
                injection heq with h1 h2
                subst h1
                exact ha ⟨hal, had⟩
              · rcases Decidable.not_and_iff_or_not.mp ha with h | h
                · exact Or.inl h
                · exact Or.inr (by simpa using h)
          · refine iff_of_false (by simp) ?_
            rintro ⟨-, -, -, -, a', b', heq, -⟩
            simp at heq
        · rw [if_pos (by simpa using hc)]
          refine iff_of_false (by simp) ?_
          rintro ⟨-, -, -, h4', -⟩
          injection h4' with h
          exact hc h
  · rw [if_pos (by simpa using h6)]
    simp [h6]

/-- The function `find?` returns the element at the first index
satisfying the predicate. -/
theorem find_first_of_prefix_false {α : Type} (L : List α) (p : α → Bool) :
    ∀ (i : Nat) (hi : i < L.length), p (L.get ⟨i, hi⟩) = true →
      (∀ (j : Nat) (hj : j < L.length), j < i → p (L.get ⟨j, hj⟩) = false) →
      L.find? p = some (L.get ⟨i, hi⟩) := by
  induction L with
  | nil => intro i hi; simp at hi
  | cons a l ih =>
    intro i hi h hprev
    cases i with
    | zero =>
      have ha : p a = true := h
      simp [List.find?, ha]
    | succ k =>
      have ha : p a = false := hprev 0 (by simp) (Nat.succ_pos k)
      have := ih k (by simpa using hi) h
        (fun j hj hjk => hprev (j + 1) (by simpa using hj) (by omega))
      simpa [List.find?, ha] using this

/-- C6: the timestamp normalizer adopts, for the whole column, the first
strict format in `formatos_fecha` that parses at least one entry; only
when no strict format yields any valid value does it fall back to the
generic parser applied entry-wise; and missing entries stay missing
(never a sentinel date) under either strategy. -/
theorem c6_format_selection :
    (∀ (col : List (Option PyStr)) (generic : PyStr → Option PDateTime)
      (i : Nat) (hi : i < formatos_fecha.length),
      (parseColumn (formatos_fecha.get ⟨i, hi⟩) col).any Option.isSome = true →
      (∀ (j : Nat) (hj : j < formatos_fecha.length), j < i →
        (parseColumn (formatos_fecha.get ⟨j, hj⟩) col).any Option.isSome = false) →
      procesar_timestamps col generic = parseColumn (formatos_fecha.get ⟨i, hi⟩) col)
  ∧ (∀ (col : List (Option PyStr)) (generic : PyStr → Option PDateTime),
      (∀ f ∈ formatos_fecha, (parseColumn f col).any Option.isSome = false) →
      procesar_timestamps col generic = col.map fun o => o.bind generic)
  ∧ (∀ (col : List (Option PyStr)) (generic : PyStr → Option PDateTime),
      (procesar_timestamps col generic).length = col.length ∧
      ∀ i : Nat, col.get? i = some none →
        (procesar_timestamps col generic).get? i = some none) := by
  refine ⟨?_, ?_, ?_⟩
  · intro col generic i hi h hprev
    unfold procesar_timestamps
    rw [find_first_of_prefix_false formatos_fecha _ i hi h hprev]
  · intro col generic hall
    unfold procesar_timestamps
    rw [List.find?_eq_none.mpr (fun f hf => by simp [hall f hf])]
  · intro col generic
    unfold procesar_timestamps
    cases formatos_fecha.find? fun f => (parseColumn f col).any Option.isSome with
    | none =>
      refine ⟨List.length_map _ _, fun i hcol => ?_⟩
      rw [List.get?_eq_getElem?] at hcol ⊢
      simp [List.getElem?_map, hcol]
    | some f =>
      refine ⟨List.length_map _ _, fun i hcol => ?_⟩
      rw [List.get?_eq_getElem?] at hcol ⊢
      simp [parseColumn, List.getElem?_map, hcol]

/-- A concrete `'%Y-%m-%d %H:%M:%S'` timestamp string. -/
def ts0Chars : PyStr :=
  ['2', '0', '2', '5', '-', '0', '1', '-', '1', '5', ' ', '1', '4', ':', '3', '0', ':', '0',
    '0']

/-- C6 witness: a one-entry column in the first strict format is parsed
with exactly that format. -/
theorem c6_format_selection_witness :
    procesar_timestamps [some ts0Chars] (fun _ => none) =
      parseColumn (formatos_fecha.get ⟨0, by decide⟩) [some ts0Chars] :=
  c6_format_selection.1 [some ts0Chars] (fun _ => none) 0 (by decide) (by decide)
    (fun _ _ hji => absurd hji (by omega))

/-!
## Order folds

`pandas` reductions (`Series.min`, `Series.max`) and the smallest-mode
selection are folds; the lemmas below give their specifications.
-/

theorem foldl_min_le_of_mem {α : Type} [LinearOrder α] :
    ∀ (t : List α) (h x : α), x ∈ h :: t → t.foldl min h ≤ x := by
  intro t
  induction t with
  | nil =>
    intro h x hx
    simp at hx
    simp [hx]
  | cons a t ih =>
    intro h x hx
    rcases List.mem_cons.mp hx with rfl | hx'
    · calc t.foldl min (min x a) ≤ min x a := ih (min x a) (min x a) (by simp)
        _ ≤ x := min_le_left _ _
    · rcases List.mem_cons.mp hx' with rfl | hx''
      · calc t.foldl min (min h x) ≤ min h x := ih (min h x) (min h x) (by simp)
          _ ≤ x := min_le_right _ _
      · exact ih (min h a) x (List.mem_cons_of_mem _ hx'')

theorem foldl_min_mem {α : Type} [LinearOrder α] :
    ∀ (t : List α) (h : α), t.foldl min h ∈ h :: t := by
  intro t
  induction t with
  | nil => intro h; simp
  | cons a t ih =>
    intro h
    have := ih (min h a)
    rcases List.mem_cons.mp this with heq | hmem
    · rw [List.foldl_cons, heq]
      rcases min_choice h a with h1 | h1 <;> rw [h1] <;> simp
    · exact List.mem_cons_of_mem _ (List.mem_cons_of_mem _ hmem)

theorem le_foldl_max_of_mem {α : Type} [LinearOrder α] :
    ∀ (t : List α) (h x : α), x ∈ h :: t → x ≤ t.foldl max h := by
  intro t
  induction t with
  | nil =>
    intro h x hx
    simp at hx
    simp [hx]
  | cons a t ih =>
    intro h x hx
    rcases List.mem_cons.mp hx with rfl | hx'
    · calc x ≤ max x a := le_max_left _ _
        _ ≤ t.foldl max (max x a) := ih (max x a) (max x a) (by simp)
    · rcases List.mem_cons.mp hx' with rfl | hx''
      · calc x ≤ max h x := le_max_right _ _
          _ ≤ t.foldl max (max h x) := ih (max h x) (max h x) (by simp)
      · exact ih (max h a) x (List.mem_cons_of_mem _ hx'')

/-- The source's range guard makes `astype('int32')` the identity. -/
theorem toInt32_id (v : Int) (h1 : -2147483648 ≤ v) (h2 : v ≤ 2147483647) :
    toInt32 v = v := by
  unfold toInt32
  omega

theorem int32Fits_bounds {vals : List Int} (h : int32Fits vals = true) :
    ∀ v ∈ vals, -2147483648 ≤ v ∧ v ≤ 2147483647 := by
  cases vals with
  | nil => simp [int32Fits] at h
  | cons a t =>
    simp only [int32Fits, decide_eq_true_eq, Bool.and_eq_true] at h
    intro v hv
    exact ⟨le_trans h.1 (foldl_min_le_of_mem t a v hv),
      le_trans (le_foldl_max_of_mem t a v hv) h.2⟩

theorem optObjCol_values (c : ColData) : colValues (optObjCol c) = colValues c := by
  cases c with
  | obj vals =>
    simp only [optObjCol]
    split <;> rfl
  | int64 vals => rfl
  | int32 vals => rfl
  | cat vals => rfl
  | dt vals => rfl

theorem optIntCol_values (c : ColData) : colValues (optIntCol c) = colValues c := by
  cases c with
  | int64 vals =>
    by_cases hfit : int32Fits vals = true
    · rw [show optIntCol (.int64 vals) = .int32 (vals.map toInt32) by simp [optIntCol, hfit]]
      simp only [colValues, List.map_map]
      refine List.map_congr_left fun v hv => ?_
      obtain ⟨hlo, hhi⟩ := int32Fits_bounds hfit v hv
      simp [Function.comp, toInt32_id v hlo hhi]
    · rw [show optIntCol (.int64 vals) = .int64 vals by simp [optIntCol, hfit]]
  | int32 vals => rfl
  | obj vals => rfl
  | cat vals => rfl
  | dt vals => rfl

/-- C10: on a non-empty DataFrame the dtype optimisation preserves
content — column names in order, per-column cell values, and row counts
are unchanged — and an `int64` column is narrowed to `int32` only when
its minimum and maximum fit the `int32` range, in which case the
narrowed values equal the original ones. -/
theorem c10_optimize_preserves (cols : List (PyStr × ColData))
    (hne : ∀ nc ∈ cols, colLen nc.2 ≠ 0) :
    ((optimizar_tipos_datos cols).map Prod.fst = cols.map Prod.fst ∧
      (optimizar_tipos_datos cols).map (fun nc => colValues nc.2) =
        cols.map (fun nc => colValues nc.2) ∧
      (optimizar_tipos_datos cols).map (fun nc => colLen nc.2) =
        cols.map (fun nc => colLen nc.2))
  ∧ (∀ (i : Nat) (n : PyStr) (vals : List Int), cols.get? i = some (n, .int64 vals) →
      ∀ (m : PyStr) (w : List Int),
        (optimizar_tipos_datos cols).get? i = some (m, .int32 w) →
        int32Fits vals = true ∧ w = vals) := by
  have hfn : optimizar_tipos_datos cols =
      cols.map fun nc => (nc.1, optIntCol (optObjCol nc.2)) := by
    simp [optimizar_tipos_datos, List.map_map, Function.comp]
  constructor
  · refine ⟨?_, ?_, ?_⟩
    · rw [hfn, List.map_map]
      rfl
    · rw [hfn, List.map_map]
      refine List.map_congr_left fun nc _ => ?_
      simp [Function.comp, optIntCol_values, optObjCol_values]
    · rw [hfn, List.map_map]
      refine List.map_congr_left fun nc _ => ?_
      simp only [Function.comp, colLen, optIntCol_values, optObjCol_values]
  · intro i n vals hi m w hw
    rw [hfn, List.get?_eq_getElem?, List.getElem?_map] at hw
    rw [List.get?_eq_getElem?] at hi
    rw [hi] at hw
    simp only [Option.map_some'] at hw
    injection hw with hw
    have hw2 : optIntCol (optObjCol (.int64 vals)) = .int32 w := congrArg Prod.snd hw
    rw [show optObjCol (.int64 vals) = .int64 vals from rfl] at hw2
    by_cases hfit : int32Fits vals = true
    · rw [show optIntCol (.int64 vals) = .int32 (vals.map toInt32) by
        simp [optIntCol, hfit]] at hw2
      injection hw2 with hw2
      refine ⟨hfit, ?_⟩
      rw [← hw2]
      refine (List.map_congr_left fun v hv => ?_).trans (List.map_id vals)
      obtain ⟨hlo, hhi⟩ := int32Fits_bounds hfit v hv
      exact toInt32_id v hlo hhi
    · rw [show optIntCol (.int64 vals) = .int64 vals by simp [optIntCol, hfit]] at hw2
      exact absurd hw2 (by simp)

/-- C10 witness: a concrete two-column one-row frame. -/
theorem c10_optimize_preserves_witness :
    (optimizar_tipos_datos [(['a'], .int64 [5]), (['b'], .obj [some ['x']])]).map
        (fun nc => colValues nc.2) =
      [colValues (.int64 [5]), colValues (.obj [some ['x']])] :=
  ((c10_optimize_preserves [(['a'], .int64 [5]), (['b'], .obj [some ['x']])]
    (by decide)).1).2.1

/-!
## Lexicographic string order: basic facts
-/

theorem lexLe_cons_lt {x y : Char} (xs ys : PyStr) (h : x < y) :
    lexLe (x :: xs) (y :: ys) = true := by simp [lexLe, h]

theorem lexLe_cons_gt {x y : Char} (xs ys : PyStr) (h : y < x) :
    lexLe (x :: xs) (y :: ys) = false := by simp [lexLe, lt_asymm h, h]

theorem lexLe_cons_eq (x : Char) (xs ys : PyStr) :
    lexLe (x :: xs) (x :: ys) = lexLe xs ys := by simp [lexLe, lt_irrefl]

theorem lexLe_refl : ∀ a : PyStr, lexLe a a = true := by
  intro a
  induction a with
  | nil => rfl
  | cons x xs ih => rw [lexLe_cons_eq]; exact ih

theorem lexLe_total : ∀ a b : PyStr, lexLe a b = true ∨ lexLe b a = true := by
  intro a
  induction a with
  | nil => intro b; exact Or.inl rfl
  | cons x xs ih =>
    intro b
    cases b with
    | nil => exact Or.inr rfl
    | cons y ys =>
      rcases lt_trichotomy x y with h | h | h
      · exact Or.inl (lexLe_cons_lt xs ys h)
      · subst h
        rw [lexLe_cons_eq, lexLe_cons_eq]
        exact ih ys
      · exact Or.inr (lexLe_cons_lt ys xs h)

theorem lexLe_trans : ∀ a b c : PyStr, lexLe a b = true → lexLe b c = true →
    lexLe a c = true := by
  intro a
  induction a with
  | nil => intro b c _ _; rfl
  | cons x xs ih =>
    intro b c h1 h2
    cases b with
    | nil => simp [lexLe] at h1
    | cons y ys =>
      cases c with
      | nil => simp [lexLe] at h2
      | cons z zs =>
        rcases lt_trichotomy x y with hxy | hxy | hxy
        · rcases lt_trichotomy y z with hyz | hyz | hyz
          · exact lexLe_cons_lt xs zs (lt_trans hxy hyz)
          · subst hyz; exact lexLe_cons_lt xs zs hxy
          · rw [lexLe_cons_gt ys zs hyz] at h2; exact absurd h2 (by simp)
        · subst hxy
          rcases lt_trichotomy x z with hyz | hyz | hyz
          · exact lexLe_cons_lt xs zs hyz
          · subst hyz
            rw [lexLe_cons_eq] at h1 h2 ⊢
            exact ih ys zs h1 h2
          · rw [lexLe_cons_gt ys zs hyz] at h2; exact absurd h2 (by simp)
        · rw [lexLe_cons_gt xs ys hxy] at h1; exact absurd h1 (by simp)

theorem lexMin_choice (a b : PyStr) : lexMin a b = a ∨ lexMin a b = b := by
  unfold lexMin; split <;> simp

theorem lexLe_lexMin_left (a b : PyStr) : lexLe (lexMin a b) a = true := by
  unfold lexMin
  split
  · exact lexLe_refl a
  · next h =>
    rcases lexLe_total a b with h' | h'
    · exact absurd h' h
    · exact h'

theorem lexLe_lexMin_right (a b : PyStr) : lexLe (lexMin a b) b = true := by
  unfold lexMin
  split
  · next h => exact h
  · exact lexLe_refl b

theorem foldl_lexMin_mem : ∀ (t : List PyStr) (h : PyStr), t.foldl lexMin h ∈ h :: t := by
  intro t
  induction t with
  | nil => intro h; simp
  | cons a t ih =>
    intro h
    have := ih (lexMin h a)
    rcases List.mem_cons.mp this with heq | hmem
    · rw [List.foldl_cons, heq]
      rcases lexMin_choice h a with h1 | h1 <;> rw [h1] <;> simp
    · exact List.mem_cons_of_mem _ (List.mem_cons_of_mem _ hmem)

theorem foldl_lexMin_le :
    ∀ (t : List PyStr) (h x : PyStr), x ∈ h :: t → lexLe (t.foldl lexMin h) x = true := by
  intro t
  induction t with
  | nil =>
    intro h x hx
    simp at hx
    simp [hx, lexLe_refl]
  | cons a t ih =>
    intro h x hx
    rcases List.mem_cons.mp hx with rfl | hx'
    · exact lexLe_trans _ _ _ (ih (lexMin x a) (lexMin x a) (by simp))
        (lexLe_lexMin_left x a)
    · rcases List.mem_cons.mp hx' with rfl | hx''
      · exact lexLe_trans _ _ _ (ih (lexMin h x) (lexMin h x) (by simp))
          (lexLe_lexMin_right h x)
      · exact ih (lexMin h a) x (List.mem_cons_of_mem _ hx'')

theorem le_foldr_max_of_mem : ∀ (l : List Nat) (x : Nat), x ∈ l → x ≤ l.foldr max 0 := by
  intro l
  induction l with
  | nil => intro x hx; simp at hx
  | cons a t ih =>
    intro x hx
    rcases List.mem_cons.mp hx with rfl | hx'
    · exact le_max_left _ _
    · exact le_trans (ih x hx') (le_max_right _ _)

theorem foldr_max_le : ∀ (l : List Nat) (b : Nat), (∀ x ∈ l, x ≤ b) → l.foldr max 0 ≤ b := by
  intro l
  induction l with
  | nil => intro b _; exact Nat.zero_le b
  | cons a t ih =>
    intro b hb
    exact max_le (hb a (by simp)) (ih b fun x hx => hb x (List.mem_cons_of_mem _ hx))

theorem cnt_le_maxCnt {l : List (Option PyStr)} {u : PyStr} (hu : u ∈ nnOf l) :
    cnt (nnOf l) u ≤ maxCnt l :=
  le_foldr_max_of_mem _ _ (List.mem_map_of_mem _ (List.mem_dedup.mpr hu))

/-- What `seriesMode l = some v` guarantees: `v` is a non-null value of
maximal multiplicity, and the smallest such value in string order. -/
theorem seriesMode_some_spec {l : List (Option PyStr)} {v : PyStr}
    (h : seriesMode l = some v) :
    v ∈ nnOf l ∧ (∀ u ∈ nnOf l, cnt (nnOf l) u ≤ cnt (nnOf l) v) ∧
      (∀ u ∈ nnOf l, cnt (nnOf l) u = cnt (nnOf l) v → lexLe v u = true) := by
  unfold seriesMode at h
  cases htied : tiedOf l with
  | nil => rw [htied] at h; simp at h
  | cons hd t =>
    rw [htied] at h
    injection h with h
    have hvmem : v ∈ tiedOf l := by
      rw [htied, ← h]
      exact foldl_lexMin_mem t hd
    have hv := List.mem_filter.mp hvmem
    have hvc : cnt (nnOf l) v = maxCnt l := by simpa using hv.2
    have hvnn : v ∈ nnOf l := List.mem_dedup.mp hv.1
    refine ⟨hvnn, fun u hu => ?_, fun u hu hcnt => ?_⟩
    · rw [hvc]
      exact cnt_le_maxCnt hu
    · have hut : u ∈ tiedOf l :=
        List.mem_filter.mpr ⟨List.mem_dedup.mpr hu, by simp [hcnt, hvc]⟩
      rw [htied] at hut
      rw [← h]
      exact foldl_lexMin_le t hd u hut

/-- A strictly most frequent non-null value is the mode. -/
theorem seriesMode_strict {l : List (Option PyStr)} {v : PyStr} (hv : v ∈ nnOf l)
    (hmax : ∀ u ∈ nnOf l, u ≠ v → cnt (nnOf l) u < cnt (nnOf l) v) :
    seriesMode l = some v := by
  have hvc : cnt (nnOf l) v = maxCnt l := by
    refine le_antisymm (cnt_le_maxCnt hv) (foldr_max_le _ _ ?_)
    rintro x hx
    obtain ⟨u, hu, rfl⟩ := List.mem_map.mp hx
    by_cases huv : u = v
    · subst huv; exact le_refl _
    · exact le_of_lt (hmax u (List.mem_dedup.mp hu) huv)
  have hvt : v ∈ tiedOf l :=
    List.mem_filter.mpr ⟨List.mem_dedup.mpr hv, by simp [hvc]⟩
  unfold seriesMode
  cases htied : tiedOf l with
  | nil => rw [htied] at hvt; simp at hvt
  | cons hd t =>
    have hw : t.foldl lexMin hd ∈ tiedOf l := by
      rw [htied]; exact foldl_lexMin_mem t hd
    have hwf := List.mem_filter.mp hw
    have hwc : cnt (nnOf l) (t.foldl lexMin hd) = maxCnt l := by simpa using hwf.2
    have hwnn := List.mem_dedup.mp hwf.1
    dsimp only
    by_cases hwv : t.foldl lexMin hd = v
    · rw [hwv]
    · exact absurd hwc (by rw [← hvc]; exact ne_of_lt (hmax _ hwnn hwv))

/-- A series whose values are all null has no mode. -/
theorem seriesMode_all_none {l : List (Option PyStr)} (h : ∀ x ∈ l, x = none) :
    seriesMode l = none := by
  have hnn : nnOf l = [] := by
    unfold nnOf
    rw [List.filterMap_eq_nil]
    intro a ha
    rw [h a ha]
    rfl
  unfold seriesMode tiedOf candsOf
  rw [hnn]
  rfl

theorem lookup_keys_map (f : Int → Option PyStr) :
    ∀ (keys : List Int) (p : Int), p ∈ keys →
      lookupCorp (keys.map fun q => (q, f q)) p = some (f p) := by
  intro keys
  induction keys with
  | nil => intro p hp; simp at hp
  | cons q t ih =>
    intro p hp
    by_cases hqp : q = p
    · subst hqp
      simp [lookupCorp, List.find?]
    · rcases List.mem_cons.mp hp with rfl | hp'
      · exact absurd rfl hqp
      · simpa [lookupCorp, List.find?, hqp] using ih p hp'

theorem lookup_keys_map_not_mem (f : Int → Option PyStr) (keys : List Int) (p : Int)
    (hp : p ∉ keys) : lookupCorp (keys.map fun q => (q, f q)) p = none := by
  unfold lookupCorp
  rw [List.find?_eq_none.mpr]
  · rfl
  · rintro ⟨q, o⟩ hq
    simp only [List.mem_map] at hq
    obtain ⟨q', hq', heq⟩ := hq
    injection heq with h1 h2
    subst h1
    intro hcontra
    apply hp
    have hqp : q' = p := by simpa using hcontra
    exact hqp ▸ hq' 

/-- A project absent from the deployments never gets a row (the
`crear_corporaciones_null` fallback yields null after the left merge
either way). -/
theorem jurisdictionOf_null_table (deps : List Deployment) (p : Int) :
    jurisdictionOf (crear_corporaciones_null deps) p = none := by
  unfold jurisdictionOf crear_corporaciones_null
  by_cases hp : p ∈ (deps.map Deployment.project_id).dedup
  · rw [lookup_keys_map (fun _ => none) _ p hp]
    rfl
  · rw [lookup_keys_map_not_mem (fun _ => none) _ p hp]
    rfl

/-- The per-project series handed to the pandas mode equals
`projectEvidence`. -/
theorem asignar_values_eq (deps : List Deployment) (polys : List CarPolygon) (p : Int) :
    (((deps_validos deps).map fun d => (d.project_id, sjoinWithin polys d)).filter
        (fun row => row.1 = p)).map Prod.snd = projectEvidence deps polys p := by
  unfold projectEvidence
  rw [List.filter_map, List.map_map]
  rfl

/-- The main branch of the assigner, written with `projectEvidence`. -/
theorem asignar_table_eq (deps : List Deployment) (polys : List CarPolygon)
    (h : ¬ deps_validos deps = []) :
    asignar_corporacion_geografica deps (.table true polys) =
      (((deps_validos deps).map fun d => (d.project_id, sjoinWithin polys d)).map
          Prod.fst).dedup.map
        (fun p => (p, seriesMode (projectEvidence deps polys p))) := by
  unfold asignar_corporacion_geografica
  dsimp only
  rw [if_neg (by simpa [List.isEmpty_iff] using h)]
  refine List.map_congr_left fun p _ => ?_
  rw [asignar_values_eq]

/-- The project keys of the grouped join table. -/
def projKeys (deps : List Deployment) (polys : List CarPolygon) : List Int :=
  (((deps_validos deps).map fun d => (d.project_id, sjoinWithin polys d)).map Prod.fst).dedup

theorem mem_projKeys_iff (deps : List Deployment) (polys : List CarPolygon) (p : Int) :
    p ∈ projKeys deps polys ↔ ∃ d ∈ deps_validos deps, d.project_id = p := by
  unfold projKeys
  rw [List.mem_dedup]
  constructor
  · intro hp
    obtain ⟨row, hrow, hrp⟩ := List.mem_map.mp hp
    obtain ⟨d, hd, hdr⟩ := List.mem_map.mp hrow
    exact ⟨d, hd, by rw [← hrp, ← hdr]⟩
  · rintro ⟨d, hd, rfl⟩
    exact List.mem_map.mpr ⟨(d.project_id, sjoinWithin polys d),
      List.mem_map.mpr ⟨d, hd, rfl⟩, rfl⟩

theorem evidence_mem_exists {deps : List Deployment} {polys : List CarPolygon} {p : Int}
    {o : Option PyStr} (ho : o ∈ projectEvidence deps polys p) :
    ∃ d ∈ deps_validos deps, d.project_id = p := by
  unfold projectEvidence at ho
  obtain ⟨d, hd, _⟩ := List.mem_map.mp ho
  have hdf := List.mem_filter.mp hd
  exact ⟨d, hdf.1, by simpa using hdf.2⟩

theorem asignar_table_empty (deps : List Deployment) (polys : List CarPolygon)
    (h : deps_validos deps = []) :
    asignar_corporacion_geografica deps (.table true polys) =
      crear_corporaciones_null deps := by
  unfold asignar_corporacion_geografica
  dsimp only
  rw [if_pos (by simp [h, List.isEmpty_iff])]

theorem jurisdictionOf_table (deps : List Deployment) (polys : List CarPolygon) (p : Int)
    (hdv : ¬ deps_validos deps = []) :
    jurisdictionOf (asignar_corporacion_geografica deps (.table true polys)) p =
      if p ∈ projKeys deps polys then seriesMode (projectEvidence deps polys p) else none := by
  rw [asignar_table_eq deps polys hdv]
  have hk : (((deps_validos deps).map fun d => (d.project_id, sjoinWithin polys d)).map
      Prod.fst).dedup = projKeys deps polys := rfl
  rw [hk]
  unfold jurisdictionOf
  by_cases hp : p ∈ projKeys deps polys
  · rw [lookup_keys_map (fun q => seriesMode (projectEvidence deps polys q)) _ p hp,
      if_pos hp]
    rfl
  · rw [lookup_keys_map_not_mem (fun q => seriesMode (projectEvidence deps polys q)) _ p hp,
      if_neg hp]
    rfl

/-- CAR polygon covering the eastern half-plane. -/
def polyA : CarPolygon := ⟨['A'], fun q => decide (0 ≤ q.1)⟩

/-- CAR polygon covering the western half-plane. -/
def polyB : CarPolygon := ⟨['B'], fun q => decide (q.1 < 0)⟩

def depAt (did : Char) (pid lon : Int) : Deployment :=
  ⟨[did], pid, none, some lon, some 0⟩

/-- Project 1 splits its deployments 3-to-1 between regions A and B. -/
def deps31 : List Deployment :=
  [depAt 'a' 1 1, depAt 'b' 1 2, depAt 'c' 1 3, depAt 'd' 1 (-7)]

/-- C3 (amended): project jurisdiction is the most frequent non-null
deployment jurisdiction — a strictly most frequent value is always
assigned; deployments with a missing coordinate contribute no evidence
and never receive a non-null jurisdiction; a 3-to-1 split between "A"
and "B" yields "A"; all-null or no-coordinate projects get null; and the
assigned value is always a maximal-count non-null value that is
*smallest in ascending (lexicographic) order* among the tied modes —
ties are broken by sorted order, not first-encountered order. -/
theorem c3_mode_amended :
    (∀ (deps : List Deployment) (polys : List CarPolygon) (p : Int) (v : PyStr),
      v ∈ nnOf (projectEvidence deps polys p) →
      (∀ u ∈ nnOf (projectEvidence deps polys p), u ≠ v →
        cnt (nnOf (projectEvidence deps polys p)) u <
          cnt (nnOf (projectEvidence deps polys p)) v) →
      jurisdictionOf (asignar_corporacion_geografica deps (.table true polys)) p = some v)
  ∧ (∀ (polys : List CarPolygon) (d : Deployment),
      d.latitude = none ∨ d.longitude = none → sjoinWithin polys d = none)
  ∧ (∀ (deps : List Deployment) (polys : List CarPolygon) (p : Int),
      (∀ x ∈ projectEvidence deps polys p, x = none) →
      jurisdictionOf (asignar_corporacion_geografica deps (.table true polys)) p = none)
  ∧ (∀ (deps : List Deployment) (polys : List CarPolygon) (p : Int) (w : PyStr),
      jurisdictionOf (asignar_corporacion_geografica deps (.table true polys)) p = some w →
      w ∈ nnOf (projectEvidence deps polys p) ∧
        (∀ u ∈ nnOf (projectEvidence deps polys p),
          cnt (nnOf (projectEvidence deps polys p)) u ≤
            cnt (nnOf (projectEvidence deps polys p)) w) ∧
        (∀ u ∈ nnOf (projectEvidence deps polys p),
          cnt (nnOf (projectEvidence deps polys p)) u =
            cnt (nnOf (projectEvidence deps polys p)) w → lexLe w u = true))
  ∧ jurisdictionOf (asignar_corporacion_geografica deps31 (.table true [polyA, polyB])) 1 =
      some ['A'] := by
  refine ⟨?_, ?_, ?_, ?_, by decide⟩
  · intro deps polys p v hv hmax
    obtain ⟨o, ho, -⟩ := List.mem_filterMap.mp hv
    obtain ⟨d, hd, hdp⟩ := evidence_mem_exists ho
    have hdv : ¬ deps_validos deps = [] := fun h0 => by rw [h0] at hd; simp at hd
    rw [jurisdictionOf_table deps polys p hdv,
      if_pos ((mem_projKeys_iff deps polys p).mpr ⟨d, hd, hdp⟩)]
    exact seriesMode_strict hv hmax
  · intro polys d hd
    unfold sjoinWithin
    rcases hd with hd | hd <;> rw [hd]
    cases d.longitude <;> rfl
  · intro deps polys p hall
    by_cases hdv : deps_validos deps = []
    · rw [asignar_table_empty deps polys hdv]
      exact jurisdictionOf_null_table deps p
    · rw [jurisdictionOf_table deps polys p hdv]
      by_cases hp : p ∈ projKeys deps polys
      · rw [if_pos hp]
        exact seriesMode_all_none hall
      · rw [if_neg hp]
  · intro deps polys p w hw
    by_cases hdv : deps_validos deps = []
    · rw [asignar_table_empty deps polys hdv, jurisdictionOf_null_table deps p] at hw
      exact absurd hw (by simp)
    · rw [jurisdictionOf_table deps polys p hdv] at hw
      by_cases hp : p ∈ projKeys deps polys
      · rw [if_pos hp] at hw
        exact seriesMode_some_spec hw
      · rw [if_neg hp] at hw
        exact absurd hw (by simp)

/-- Deployment of project 1 inside region B, listed first. -/
def depB1 : Deployment := ⟨['x'], 1, none, some (-5), some 0⟩

/-- Deployment of project 1 inside region A, listed second. -/
def depA1 : Deployment := ⟨['y'], 1, none, some 5, some 0⟩

/-- C3 counterexample: with a 1-1 tie whose first-encountered
jurisdiction is "B", the code assigns "A" (the pandas mode list is
sorted ascending and `[0]` takes its smallest entry), so ties are NOT
broken by first-encountered order as the claim states. -/
theorem c3_tie_counterexample :
    projectEvidence [depB1, depA1] [polyA, polyB] 1 = [some ['B'], some ['A']] ∧
    jurisdictionOf
        (asignar_corporacion_geografica [depB1, depA1] (.table true [polyA, polyB])) 1 =
      some ['A'] ∧
    (['A'] : PyStr) ≠ ['B'] := by
  refine ⟨by decide, by decide, by decide⟩

/-- C3 witness: the all-null clause applied to a deployment without
coordinates. -/
theorem c3_mode_amended_witness :
    jurisdictionOf
        (asignar_corporacion_geografica [⟨['n'], 3, none, none, some 0⟩]
          (.table true [polyA, polyB])) 3 = none :=
  c3_mode_amended.2.2.1 [⟨['n'], 3, none, none, some 0⟩] [polyA, polyB] 3 (by decide)

/-- C4: when the polygon dataset is missing, unreadable, or lacks the
`NOMBRE_CAR` attribute, the assigner returns the null fallback table,
which contains every unique `project_id` of the deployments input mapped
to a null jurisdiction; and the orchestrator's outcome never depends on
the shapefile, so the run continues regardless. -/
theorem c4_degraded_null :
    (∀ deps : List Deployment,
      asignar_corporacion_geografica deps .missing = crear_corporaciones_null deps ∧
      asignar_corporacion_geografica deps .readError = crear_corporaciones_null deps ∧
      ∀ polys, asignar_corporacion_geografica deps (.table false polys) =
        crear_corporaciones_null deps)
  ∧ (∀ (deps : List Deployment) (p : Int), p ∈ deps.map Deployment.project_id →
      lookupCorp (crear_corporaciones_null deps) p = some none)
  ∧ (∀ (inp : RawInputs) (s1 s2 : ShpData),
      mainRun { inp with shp := s1 } = mainRun { inp with shp := s2 }) := by
  refine ⟨fun deps => ⟨rfl, rfl, fun _ => rfl⟩, ?_, ?_⟩
  · intro deps p hp
    exact lookup_keys_map (fun _ => none) _ p (List.mem_dedup.mpr hp)
  · intro inp s1 s2
    rfl

/-- C4 witness: the null fallback on a concrete deployment table. -/
theorem c4_degraded_null_witness :
    lookupCorp (crear_corporaciones_null [depB1, depA1]) 1 = some none :=
  c4_degraded_null.2.1 [depB1, depA1] 1 (by decide)

/-- C8: an empty dataset at a mandatory stage is fatal — if no image
records load, or the data is empty after the subproject-validity filter,
or empty after the date-consistency filter, the orchestrator returns
failure and the export and validation phases do not run. -/
theorem c8_empty_fatal :
    (∀ inp : RawInputs, inp.images = none → mainRun inp = failRun)
  ∧ (∀ inp : RawInputs, inp.images = some [] → mainRun inp = failRun)
  ∧ (∀ (inp : RawInputs) (imgs : List ObsRow), inp.images = some imgs →
      pipelineAfterSubproject inp imgs = [] → mainRun inp = failRun)
  ∧ (∀ (inp : RawInputs) (imgs : List ObsRow), inp.images = some imgs →
      pipelineAfterDates inp imgs = [] → mainRun inp = failRun)
  ∧ (failRun.success = false ∧ failRun.exported = false ∧ failRun.validated = false) := by
  refine ⟨?_, ?_, ?_, ?_, rfl, rfl, rfl⟩
  · intro inp h
    unfold mainRun
    rw [h]
    split <;> rfl
  · intro inp h
    unfold mainRun
    rw [h]
    split <;> rfl
  · intro inp imgs h hsub
    unfold mainRun
    rw [h]
    split
    · rfl
    · dsimp only
      rcases himgs : imgs.isEmpty with _ | _
      · rw [if_neg (by simp), if_pos (by simp [hsub, List.isEmpty_iff])]
      · rw [if_pos rfl]
  · intro inp imgs h hdat
    unfold mainRun
    rw [h]
    split
    · rfl
    · dsimp only
      rcases himgs : imgs.isEmpty with _ | _
      · rw [if_neg (by simp)]
        by_cases hsub : (pipelineAfterSubproject inp imgs).isEmpty = true
        · rw [if_pos hsub]
        · rw [if_neg hsub, if_pos (by simp [hdat, List.isEmpty_iff])]
      · rw [if_pos rfl]

/-- C8 witness: a run whose images could not be loaded fails. -/
theorem c8_empty_fatal_witness :
    mainRun ⟨true, none, [], .missing, true, true, fun _ => none⟩ = failRun :=
  c8_empty_fatal.1 ⟨true, none, [], .missing, true, true, fun _ => none⟩ rfl

/-- C2 witness: the characterization instantiated on a concrete valid
code. -/
theorem c2_validator_characterization_witness :
    validar_subproject_name (some ['2', '0', '2', '5', '_', '3']) = true :=
  (c2_validator_characterization.1 ['2', '0', '2', '5', '_', '3']).mpr
    ⟨by decide, by decide, by decide, by decide, ['2', '0', '2', '5'], ['3'], by decide,
      by decide, by decide, by decide, by decide, by decide⟩

/-- C7 witness: idempotence on the concrete two-row scenario. -/
theorem c7_filter_idempotent_witness :
    filtrar_fechas_inconsistentes (filtrar_fechas_inconsistentes [rowDrop2019, rowKeep2024]) =
      filtrar_fechas_inconsistentes [rowDrop2019, rowKeep2024] :=
  c7_filter_idempotent [rowDrop2019, rowKeep2024]
